import Mathlib

/-!
# delta-bot: exchange backends and their factory

A shallow embedding of `internal/logger`, `internal/exchange/errors.go`,
`internal/exchange/exchange.go`, `internal/exchange/binance.go`,
`internal/exchange/coinbase.go` and `internal/exchange/kucoin.go`.

Conventions of the embedding.

* A Go method with a pointer receiver that mutates the receiver and writes to
  the log becomes a function returning an `Effect`: the receiver after the call,
  the log entries written during the call (in order) and the returned `error`
  (`none` for `nil`).
* The `context.Context` argument of `Start` and `Stop` is never read by any
  backend and is left out.
* A log entry is the text handed to `log.Printf`; the timestamp header that the
  standard logger puts in front of it is not part of the model.
* `fmt.Sprintf` with `%s` verbs is string concatenation.
* Go's `(Exchange, error)` result pair is a pair of `Option`s, so that
  "a backend or an error, never both, never neither" is a statement to prove
  and not a consequence of the result type.
* `Factory.Create` calls `NewKraken`, which no source file defines, and the
  spec's lifecycle supervisor has no source file either. Both are modelled
  from the spec; each such definition says so in its doc comment.
-/

namespace DeltaBot

/-! ## internal/logger/logger.go -/

/-- The `Logger` struct; `nrApp` records whether the New Relic application
pointer is non-nil. -/
structure Logger where
  nrApp : Bool
deriving DecidableEq, Repr

/-- The method `Logger.Info`: `log.Printf("INFO: %s", message)`. -/
def Logger.Info (_l : Logger) (message : String) : List String :=
  ["INFO: " ++ message]

/-! ## internal/exchange/errors.go and the errors made by `fmt.Errorf` -/

/-- The Go type `ExchangeType`, a string. -/
abbrev ExchangeType := String

/-- The struct `UnsupportedExchangeError`. -/
structure UnsupportedExchangeError where
  ExchangeType : DeltaBot.ExchangeType
deriving DecidableEq, Repr

/-- The method `UnsupportedExchangeError.Error`:
`fmt.Sprintf("unsupported exchange type: %s", e.ExchangeType)`. -/
def UnsupportedExchangeError.Error (e : UnsupportedExchangeError) : String :=
  "unsupported exchange type: " ++ e.ExchangeType

/-- The function `NewUnsupportedExchangeError`. -/
def NewUnsupportedExchangeError (exchangeType : ExchangeType) : UnsupportedExchangeError :=
  { ExchangeType := exchangeType }

/-- The values of Go's `error` interface that this package produces: the plain
message error built by `fmt.Errorf` (no wrapping verb is used) and
`*UnsupportedExchangeError`. -/
inductive Error where
  | errorString (s : String)
  | unsupportedExchange (e : UnsupportedExchangeError)
deriving DecidableEq, Repr

set_option linter.dupNamespace false in
/-- The method `Error()` of the `error` interface. -/
def Error.Error : DeltaBot.Error → String
  | .errorString s => s
  | .unsupportedExchange e => e.Error

/-- The call `fmt.Errorf(msg)` with a format string without verbs. -/
def Errorf (msg : String) : DeltaBot.Error :=
  .errorString msg

/-! ## internal/exchange/exchange.go: constants and `Config` -/

/-- The constant `ExchangeTypeBinance`. -/
def ExchangeTypeBinance : ExchangeType := "binance"

/-- The constant `ExchangeTypeKucoin`. -/
def ExchangeTypeKucoin : ExchangeType := "kucoin"

/-- The constant `ExchangeTypeCoinbase`. -/
def ExchangeTypeCoinbase : ExchangeType := "coinbase"

/-- The constant `ExchangeTypeKraken`. -/
def ExchangeTypeKraken : ExchangeType := "kraken"

/-- The struct `Config`; the field `Type` of the source is `Type_` here
(`Type` is a keyword). -/
structure Config where
  Type_ : ExchangeType
  Name : String
  APIKey : String
  Secret : String
  Sandbox : Bool
  Enabled : Bool
deriving DecidableEq, Repr

/-- What a call of a mutating method leaves behind: the receiver after the
call, the log entries written and the returned error. -/
structure Effect (σ : Type) where
  self : σ
  log : List String
  err : Option DeltaBot.Error
deriving DecidableEq, Repr

/-! ## internal/exchange/binance.go -/

/-- The struct `Binance`. -/
structure Binance where
  config : Config
  logger : Logger
  running : Bool
deriving DecidableEq, Repr

/-- The function `NewBinance`; `running` takes Go's zero value. -/
def NewBinance (config : Config) (logger : Logger) : Binance :=
  { config := config, logger := logger, running := false }

/-- The method `Binance.Name`. -/
def Binance.Name (b : Binance) : String :=
  b.config.Name

/-- The method `Binance.Start`. -/
def Binance.Start (b : Binance) : Effect Binance :=
  if b.running then
    { self := b, log := [], err := some (Errorf "binance exchange already running") }
  else
    let l1 := b.logger.Info ("Starting " ++ b.Name ++ " exchange")
    let b1 : Binance := { b with running := true }
    let l2 := b1.logger.Info (b1.Name ++ " exchange started successfully")
    { self := b1, log := l1 ++ l2, err := none }

/-- The method `Binance.Stop`. -/
def Binance.Stop (b : Binance) : Effect Binance :=
  if !b.running then
    { self := b, log := [], err := none }
  else
    let l1 := b.logger.Info ("Stopping " ++ b.Name ++ " exchange")
    let b1 : Binance := { b with running := false }
    let l2 := b1.logger.Info (b1.Name ++ " exchange stopped")
    { self := b1, log := l1 ++ l2, err := none }

/-- The method `Binance.IsRunning`. -/
def Binance.IsRunning (b : Binance) : Bool :=
  b.running

/-! ## internal/exchange/coinbase.go -/

/-- The struct `Coinbase`. -/
structure Coinbase where
  config : Config
  logger : Logger
  running : Bool
deriving DecidableEq, Repr

/-- The function `NewCoinbase`. -/
def NewCoinbase (config : Config) (logger : Logger) : Coinbase :=
  { config := config, logger := logger, running := false }

/-- The method `Coinbase.Name`. -/
def Coinbase.Name (c : Coinbase) : String :=
  c.config.Name

/-- The method `Coinbase.Start`. -/
def Coinbase.Start (c : Coinbase) : Effect Coinbase :=
  if c.running then
    { self := c, log := [], err := some (Errorf "coinbase exchange already running") }
  else
    let l1 := c.logger.Info ("Starting " ++ c.Name ++ " exchange")
    let c1 : Coinbase := { c with running := true }
    let l2 := c1.logger.Info (c1.Name ++ " exchange started successfully")
    { self := c1, log := l1 ++ l2, err := none }

/-- The method `Coinbase.Stop`. -/
def Coinbase.Stop (c : Coinbase) : Effect Coinbase :=
  if !c.running then
    { self := c, log := [], err := none }
  else
    let l1 := c.logger.Info ("Stopping " ++ c.Name ++ " exchange")
    let c1 : Coinbase := { c with running := false }
    let l2 := c1.logger.Info (c1.Name ++ " exchange stopped")
    { self := c1, log := l1 ++ l2, err := none }

/-- The method `Coinbase.IsRunning`. -/
def Coinbase.IsRunning (c : Coinbase) : Bool :=
  c.running

/-! ## internal/exchange/kucoin.go -/

/-- The struct `Kucoin`. -/
structure Kucoin where
  config : Config
  logger : Logger
  running : Bool
deriving DecidableEq, Repr

/-- The function `NewKucoin`. -/
def NewKucoin (config : Config) (logger : Logger) : Kucoin :=
  { config := config, logger := logger, running := false }

/-- The method `Kucoin.Name`. -/
def Kucoin.Name (k : Kucoin) : String :=
  k.config.Name

/-- The method `Kucoin.Start`. -/
def Kucoin.Start (k : Kucoin) : Effect Kucoin :=
  if k.running then
    { self := k, log := [], err := some (Errorf "kucoin exchange already running") }
  else
    let l1 := k.logger.Info ("Starting " ++ k.Name ++ " exchange")
    let k1 : Kucoin := { k with running := true }
    let l2 := k1.logger.Info (k1.Name ++ " exchange started successfully")
    { self := k1, log := l1 ++ l2, err := none }

/-- The method `Kucoin.Stop`. -/
def Kucoin.Stop (k : Kucoin) : Effect Kucoin :=
  if !k.running then
    { self := k, log := [], err := none }
  else
    let l1 := k.logger.Info ("Stopping " ++ k.Name ++ " exchange")
    let k1 : Kucoin := { k with running := false }
    let l2 := k1.logger.Info (k1.Name ++ " exchange stopped")
    { self := k1, log := l1 ++ l2, err := none }

/-- The method `Kucoin.IsRunning`. -/
def Kucoin.IsRunning (k : Kucoin) : Bool :=
  k.running

/-! ## The Kraken backend

`Factory.Create` calls `NewKraken`, but no source file defines the type. -/

/-- Modelled from the spec: the struct behind `NewKraken`, which
`Factory.Create` calls and no source file defines. Section 3 gives every
backend its owning config and a running flag; the logger handle is the second
argument of the `NewKraken` call. -/
structure Kraken where
  config : Config
  logger : Logger
  running : Bool
deriving DecidableEq, Repr

/-- Modelled from the spec: the constructor `NewKraken` (called in
`Factory.Create`, defined in no source file). A backend is created not
running and holds the config it was built from. -/
def NewKraken (config : Config) (logger : Logger) : Kraken :=
  { config := config, logger := logger, running := false }

/-- Modelled from the spec: the method `Name` of the Kraken backend, "returns
the configured display name; pure, no side effects". -/
def Kraken.Name (k : Kraken) : String :=
  k.config.Name

/-- Modelled from the spec: the method `Start` of the Kraken backend. It
"fails with AlreadyRunningError if called while already running (no state
change on failure)" and otherwise marks the backend running; the Info calls
around the transition are those of section 6, and the message texts follow
the three backends of the source, which the spec calls behaviourally
identical to this one. -/
def Kraken.Start (k : Kraken) : Effect Kraken :=
  if k.running then
    { self := k, log := [], err := some (Errorf "kraken exchange already running") }
  else
    let l1 := k.logger.Info ("Starting " ++ k.Name ++ " exchange")
    let k1 : Kraken := { k with running := true }
    let l2 := k1.logger.Info (k1.Name ++ " exchange started successfully")
    { self := k1, log := l1 ++ l2, err := none }

/-- Modelled from the spec: the method `Stop` of the Kraken backend. "If
already not-running, returns success immediately (idempotent no-op)";
otherwise it marks the backend not running. -/
def Kraken.Stop (k : Kraken) : Effect Kraken :=
  if !k.running then
    { self := k, log := [], err := none }
  else
    let l1 := k.logger.Info ("Stopping " ++ k.Name ++ " exchange")
    let k1 : Kraken := { k with running := false }
    let l2 := k1.logger.Info (k1.Name ++ " exchange stopped")
    { self := k1, log := l1 ++ l2, err := none }

/-- Modelled from the spec: the method `IsRunning` of the Kraken backend, a
"pure read of current state". -/
def Kraken.IsRunning (k : Kraken) : Bool :=
  k.running

/-! ## internal/exchange/exchange.go: the interface and the factory -/

/-- The interface `Exchange`: a value of the interface is one of the backend
types that implement it. -/
inductive Exchange where
  | binance (b : Binance)
  | kucoin (k : Kucoin)
  | coinbase (c : Coinbase)
  | kraken (k : Kraken)
deriving DecidableEq, Repr

/-- Interface method `Name`, dispatched to the backend. -/
def Exchange.Name : Exchange → String
  | .binance b => b.Name
  | .kucoin k => k.Name
  | .coinbase c => c.Name
  | .kraken k => k.Name

/-- Interface method `Start`, dispatched to the backend. -/
def Exchange.Start : Exchange → Effect Exchange
  | .binance b => let r := b.Start; { self := .binance r.self, log := r.log, err := r.err }
  | .kucoin k => let r := k.Start; { self := .kucoin r.self, log := r.log, err := r.err }
  | .coinbase c => let r := c.Start; { self := .coinbase r.self, log := r.log, err := r.err }
  | .kraken k => let r := k.Start; { self := .kraken r.self, log := r.log, err := r.err }

/-- Interface method `Stop`, dispatched to the backend. -/
def Exchange.Stop : Exchange → Effect Exchange
  | .binance b => let r := b.Stop; { self := .binance r.self, log := r.log, err := r.err }
  | .kucoin k => let r := k.Stop; { self := .kucoin r.self, log := r.log, err := r.err }
  | .coinbase c => let r := c.Stop; { self := .coinbase r.self, log := r.log, err := r.err }
  | .kraken k => let r := k.Stop; { self := .kraken r.self, log := r.log, err := r.err }

/-- Interface method `IsRunning`, dispatched to the backend. -/
def Exchange.IsRunning : Exchange → Bool
  | .binance b => b.IsRunning
  | .kucoin k => k.IsRunning
  | .coinbase c => c.IsRunning
  | .kraken k => k.IsRunning

/-- The struct `Factory`. -/
structure Factory where
  logger : Logger
deriving DecidableEq, Repr

/-- The function `NewFactory`. -/
def NewFactory (logger : Logger) : Factory :=
  { logger := logger }

/-- The method `Factory.Create`: the `switch` on `config.Type`, its cases tried
in source order; the result is Go's pair `(Exchange, error)`. -/
def Factory.Create (f : Factory) (config : Config) : Option Exchange × Option DeltaBot.Error :=
  if config.Type_ = ExchangeTypeBinance then
    (some (.binance (NewBinance config f.logger)), none)
  else if config.Type_ = ExchangeTypeKucoin then
    (some (.kucoin (NewKucoin config f.logger)), none)
  else if config.Type_ = ExchangeTypeCoinbase then
    (some (.coinbase (NewCoinbase config f.logger)), none)
  else if config.Type_ = ExchangeTypeKraken then
    (some (.kraken (NewKraken config f.logger)), none)
  else
    (none, some (.unsupportedExchange (NewUnsupportedExchangeError config.Type_)))

/-! ## Call sequences on a backend -/

/-- One call of a method of the `Exchange` interface. -/
inductive Call where
  | Name
  | Start
  | Stop
  | IsRunning
deriving DecidableEq, Repr

/-- What the caller of one interface method observes: the returned name, the
returned error together with the log entries written during the call, or the
returned running flag. -/
inductive Obs where
  | name (s : String)
  | done (err : Option DeltaBot.Error) (log : List String)
  | running (b : Bool)
deriving DecidableEq, Repr

/-- Perform one call: the backend afterwards and what was observed. -/
def Exchange.call (e : Exchange) : Call → Exchange × Obs
  | .Name => (e, .name e.Name)
  | .Start => let r := e.Start; (r.self, .done r.err r.log)
  | .Stop => let r := e.Stop; (r.self, .done r.err r.log)
  | .IsRunning => (e, .running e.IsRunning)

/-- The backend after a sequence of calls, performed left to right. -/
def Exchange.after (e : Exchange) : List Call → Exchange
  | [] => e
  | c :: cs => Exchange.after (e.call c).1 cs

/-- The observations of a sequence of calls, performed left to right. -/
def Exchange.trace (e : Exchange) : List Call → List Obs
  | [] => []
  | c :: cs => (e.call c).2 :: Exchange.trace (e.call c).1 cs

/-- An observation with the text of a returned error forgotten: only whether
the call failed is kept. -/
def Obs.outcome : Obs → Obs
  | .name s => .name s
  | .done err log => .done (err.map fun _ => Errorf "") log
  | .running b => .running b

/-! ## Vocabulary for the statements -/

/-- The type tag of the venue whose backend an interface value holds. -/
def Exchange.variant : Exchange → ExchangeType
  | .binance _ => ExchangeTypeBinance
  | .kucoin _ => ExchangeTypeKucoin
  | .coinbase _ => ExchangeTypeCoinbase
  | .kraken _ => ExchangeTypeKraken

/-- The config a backend was built from. -/
def Exchange.config : Exchange → Config
  | .binance b => b.config
  | .kucoin k => k.config
  | .coinbase c => c.config
  | .kraken k => k.config

/-- The error a backend of the given venue returns from `Start` while it is
running, `fmt.Errorf("<venue> exchange already running")`; the spec calls it
`AlreadyRunningError`. -/
def AlreadyRunningError (venue : String) : DeltaBot.Error :=
  Errorf (venue ++ " exchange already running")

/-- The freshly constructed backend of every venue for one config and logger,
each built by its own constructor. -/
def constructed (config : Config) (logger : Logger) : List Exchange :=
  [.binance (NewBinance config logger), .kucoin (NewKucoin config logger),
   .coinbase (NewCoinbase config logger), .kraken (NewKraken config logger)]

/-- The type tags that `Factory.Create` has a case for. -/
def supportedTypes : List ExchangeType :=
  [ExchangeTypeBinance, ExchangeTypeKucoin, ExchangeTypeCoinbase, ExchangeTypeKraken]

/-- A config used in the concrete instances below. -/
def sampleConfig : Config :=
  { Type_ := "coinbase", Name := "Coinbase Pro", APIKey := "key-1", Secret := "s3cret",
    Sandbox := true, Enabled := true }

/-- The freshly constructed backends of the venues whose source file is
present: Binance, KuCoin and Coinbase. -/
def sourceBackends (config : Config) (logger : Logger) : List Exchange :=
  [.binance (NewBinance config logger), .kucoin (NewKucoin config logger),
   .coinbase (NewCoinbase config logger)]

/-- A logger used in the concrete instances below (no New Relic application). -/
def sampleLogger : Logger :=
  { nrApp := false }

/-! ## The lifecycle supervisor

The spec describes a supervisor over the backends (sections 3 and 4.3); no
source file contains one. -/

/-- Modelled from the spec: the states of the `LifecycleSupervisor`, which no
source file defines: "Idle (constructed, no backend started), Starting, Running
(all enabled backends attempted), Stopping, Stopped (terminal)". -/
inductive SupervisorState where
  | Idle
  | Starting
  | Running
  | Stopping
  | Stopped
deriving DecidableEq, Repr

/-- Modelled from the spec: one per-backend failure inside an `AggregateError`
(no source file defines it), "preserving the identity of each failing
backend": the backend's `Name()` and the error its call returned. -/
structure BackendFailure where
  backend : String
  cause : DeltaBot.Error
deriving DecidableEq, Repr

/-- Modelled from the spec: the `AggregateError` (no source file defines it),
which "wraps one-or-more per-backend failures from StartAll/StopAll". -/
structure AggregateError where
  failures : List BackendFailure
deriving DecidableEq, Repr

/-- Modelled from the spec: the `LifecycleSupervisor` (no source file defines
it). It "owns the mapping from backend identity to ExchangeBackend (insertion
order = configuration order)", kept here as the list of backends in that order,
and is in one of the states of section 4.3. -/
structure LifecycleSupervisor where
  backends : List Exchange
  state : SupervisorState
deriving DecidableEq, Repr

/-- Modelled from the spec: what `StartAll` leaves behind (no source file
defines it): the supervisor afterwards, the log entries the backends wrote, in
order, and the result, `none` for success. -/
structure StartAllResult where
  self : LifecycleSupervisor
  log : List String
  err : Option AggregateError
deriving DecidableEq, Repr

/-- Modelled from the spec: the loop of `StartAll` (no source file defines
it). It "iterates enabled backends, calling Start on each", one after the other
in configuration order; "a single backend failing to start is reported but does
not prevent attempting the remaining backends". A backend whose config is not
enabled is left alone. The result is the backends afterwards, the log entries
written and the failures met. -/
def startEach : List Exchange → List Exchange × List String × List BackendFailure
  | [] => ([], [], [])
  | b :: bs =>
    if b.config.Enabled then
      let r := b.Start
      let failed : List BackendFailure :=
        match r.err with
        | some err => [{ backend := b.Name, cause := err }]
        | none => []
      let rest := startEach bs
      (r.self :: rest.1, r.log ++ rest.2.1, failed ++ rest.2.2)
    else
      let rest := startEach bs
      (b :: rest.1, rest.2.1, rest.2.2)

/-- Modelled from the spec: `LifecycleSupervisor.StartAll` (no source file
defines it). It runs the loop over the backends; "the aggregate result names
every backend that failed"; "the supervisor transitions to Running regardless
of individual failures". -/
def LifecycleSupervisor.StartAll (s : LifecycleSupervisor) : StartAllResult :=
  let r := startEach s.backends
  { self := { backends := r.1, state := .Running },
    log := r.2.1,
    err := if r.2.2 = [] then none else some { failures := r.2.2 } }

/-! ## Basic facts about the four backends -/

theorem Exchange.start_of_stopped (e : Exchange) (h : e.IsRunning = false) :
    e.Start.err = none ∧ e.Start.self.IsRunning = true ∧
      e.Start.self.config = e.config ∧ e.Start.self.variant = e.variant ∧
      e.Start.log = ["INFO: " ++ ("Starting " ++ e.Name ++ " exchange"),
        "INFO: " ++ (e.Name ++ " exchange started successfully")] := by
  cases e <;>
    simp_all [Exchange.Start, Exchange.IsRunning, Exchange.config, Exchange.variant,
      Exchange.Name, Binance.Start, Binance.IsRunning, Binance.Name, Kucoin.Start,
      Kucoin.IsRunning, Kucoin.Name, Coinbase.Start, Coinbase.IsRunning, Coinbase.Name,
      Kraken.Start, Kraken.IsRunning, Kraken.Name, Logger.Info]

theorem Exchange.start_of_running (e : Exchange) (h : e.IsRunning = true) :
    e.Start = { self := e, log := [], err := some (AlreadyRunningError e.variant) } := by
  cases e <;>
    simp_all [Exchange.Start, Exchange.IsRunning, Exchange.variant, Binance.Start,
      Binance.IsRunning, Kucoin.Start, Kucoin.IsRunning, Coinbase.Start,
      Coinbase.IsRunning, Kraken.Start, Kraken.IsRunning, AlreadyRunningError,
      ExchangeTypeBinance, ExchangeTypeKucoin, ExchangeTypeCoinbase, ExchangeTypeKraken]

theorem Exchange.stop_of_stopped (e : Exchange) (h : e.IsRunning = false) :
    e.Stop = { self := e, log := [], err := none } := by
  cases e <;>
    simp_all [Exchange.Stop, Exchange.IsRunning, Binance.Stop, Binance.IsRunning,
      Kucoin.Stop, Kucoin.IsRunning, Coinbase.Stop, Coinbase.IsRunning, Kraken.Stop,
      Kraken.IsRunning]

theorem Exchange.stop_of_running (e : Exchange) (h : e.IsRunning = true) :
    e.Stop.err = none ∧ e.Stop.self.IsRunning = false ∧
      e.Stop.self.config = e.config ∧ e.Stop.self.variant = e.variant ∧
      e.Stop.log = ["INFO: " ++ ("Stopping " ++ e.Name ++ " exchange"),
        "INFO: " ++ (e.Name ++ " exchange stopped")] := by
  cases e <;>
    simp_all [Exchange.Stop, Exchange.IsRunning, Exchange.config, Exchange.variant,
      Exchange.Name, Binance.Stop, Binance.IsRunning, Binance.Name, Kucoin.Stop,
      Kucoin.IsRunning, Kucoin.Name, Coinbase.Stop, Coinbase.IsRunning, Coinbase.Name,
      Kraken.Stop, Kraken.IsRunning, Kraken.Name, Logger.Info]

theorem Exchange.name_eq (e : Exchange) : e.Name = e.config.Name := by
  cases e <;> rfl

theorem constructed_stopped (config : Config) (logger : Logger) (e : Exchange)
    (h : e ∈ constructed config logger) :
    e.IsRunning = false ∧ e.config = config := by
  simp only [constructed, List.mem_cons, List.mem_singleton, List.not_mem_nil, or_false] at h
  rcases h with h | h | h | h <;> subst h <;> exact ⟨rfl, rfl⟩

theorem Exchange.start_running (e : Exchange) : e.Start.self.IsRunning = true := by
  cases h : e.IsRunning
  · exact (e.start_of_stopped h).2.1
  · rw [e.start_of_running h]; exact h

theorem Exchange.start_keeps (e : Exchange) :
    e.Start.self.config = e.config ∧ e.Start.self.variant = e.variant := by
  cases h : e.IsRunning
  · exact ⟨(e.start_of_stopped h).2.2.1, (e.start_of_stopped h).2.2.2.1⟩
  · rw [e.start_of_running h]; exact ⟨rfl, rfl⟩

theorem Exchange.stop_stopped (e : Exchange) :
    e.Stop.err = none ∧ e.Stop.self.IsRunning = false := by
  cases h : e.IsRunning
  · rw [e.stop_of_stopped h]; exact ⟨rfl, h⟩
  · exact ⟨(e.stop_of_running h).1, (e.stop_of_running h).2.1⟩

theorem Exchange.stop_keeps (e : Exchange) :
    e.Stop.self.config = e.config ∧ e.Stop.self.variant = e.variant := by
  cases h : e.IsRunning
  · rw [e.stop_of_stopped h]; exact ⟨rfl, rfl⟩
  · exact ⟨(e.stop_of_running h).2.2.1, (e.stop_of_running h).2.2.2.1⟩

theorem Exchange.call_keeps (e : Exchange) (c : Call) :
    (e.call c).1.config = e.config ∧ (e.call c).1.variant = e.variant := by
  cases c
  · exact ⟨rfl, rfl⟩
  · exact e.start_keeps
  · exact e.stop_keeps
  · exact ⟨rfl, rfl⟩

theorem Exchange.call_running (e : Exchange) (c : Call) :
    (e.call c).1.IsRunning =
      (match c with
        | .Start => true
        | .Stop => false
        | _ => e.IsRunning) := by
  cases c
  · rfl
  · exact e.start_running
  · exact e.stop_stopped.2
  · rfl

/-- Two backends with the same configured name and the same running flag answer
one call with the same observation up to the text of the error, and with the
very same observation when they are of the same venue. -/
theorem Exchange.call_congr (e₁ e₂ : Exchange) (hn : e₁.config.Name = e₂.config.Name)
    (hr : e₁.IsRunning = e₂.IsRunning) (c : Call) :
    (e₁.call c).2.outcome = (e₂.call c).2.outcome ∧
      (e₁.variant = e₂.variant → (e₁.call c).2 = (e₂.call c).2) := by
  have hN : e₁.Name = e₂.Name := by rw [e₁.name_eq, e₂.name_eq, hn]
  cases c
  · simp [Exchange.call, hN]
  · cases h : e₁.IsRunning
    · have h2 : e₂.IsRunning = false := hr ▸ h
      obtain ⟨a1, -, -, -, a5⟩ := e₁.start_of_stopped h
      obtain ⟨b1, -, -, -, b5⟩ := e₂.start_of_stopped h2
      simp [Exchange.call, a1, a5, b1, b5, hN]
    · have h2 : e₂.IsRunning = true := hr ▸ h
      simp only [Exchange.call, e₁.start_of_running h, e₂.start_of_running h2]
      exact ⟨rfl, fun hv => by rw [hv]⟩
  · cases h : e₁.IsRunning
    · have h2 : e₂.IsRunning = false := hr ▸ h
      simp [Exchange.call, e₁.stop_of_stopped h, e₂.stop_of_stopped h2]
    · have h2 : e₂.IsRunning = true := hr ▸ h
      obtain ⟨a1, -, -, -, a5⟩ := e₁.stop_of_running h
      obtain ⟨b1, -, -, -, b5⟩ := e₂.stop_of_running h2
      simp [Exchange.call, a1, a5, b1, b5, hN]
  · simp [Exchange.call, hr]

theorem Exchange.trace_congr (calls : List Call) :
    ∀ e₁ e₂ : Exchange, e₁.config.Name = e₂.config.Name → e₁.IsRunning = e₂.IsRunning →
      (e₁.trace calls).map Obs.outcome = (e₂.trace calls).map Obs.outcome ∧
        (e₁.variant = e₂.variant → e₁.trace calls = e₂.trace calls) := by
  induction calls with
  | nil => intro e₁ e₂ _ _; exact ⟨rfl, fun _ => rfl⟩
  | cons c cs ih =>
    intro e₁ e₂ hn hr
    have hc := Exchange.call_congr e₁ e₂ hn hr c
    have hn1 : (e₁.call c).1.config.Name = (e₂.call c).1.config.Name := by
      rw [(e₁.call_keeps c).1, (e₂.call_keeps c).1, hn]
    have hr1 : (e₁.call c).1.IsRunning = (e₂.call c).1.IsRunning := by
      rw [e₁.call_running c, e₂.call_running c]
      cases c <;> simp [hr]
    have ih1 := ih _ _ hn1 hr1
    refine ⟨?_, fun hv => ?_⟩
    · simp only [Exchange.trace, List.map_cons, hc.1, ih1.1]
    · have hv1 : (e₁.call c).1.variant = (e₂.call c).1.variant := by
        rw [(e₁.call_keeps c).2, (e₂.call_keeps c).2, hv]
      simp only [Exchange.trace, hc.2 hv, ih1.2 hv1]

/-- Every error seen in a trace is the already-running error of the venue. -/
theorem Exchange.trace_errors (calls : List Call) :
    ∀ e : Exchange, ∀ err log, Obs.done (some err) log ∈ e.trace calls →
      err = AlreadyRunningError e.variant ∧ log = [] := by
  induction calls with
  | nil => intro e err log h; simp [Exchange.trace] at h
  | cons c cs ih =>
    intro e err log h
    simp only [Exchange.trace, List.mem_cons] at h
    rcases h with h | h
    · cases c
      · simp [Exchange.call] at h
      · cases hr : e.IsRunning
        · simp [Exchange.call, (e.start_of_stopped hr).1] at h
        · simp only [Exchange.call, e.start_of_running hr, Obs.done.injEq,
            Option.some.injEq] at h
          exact ⟨h.1, h.2⟩
      · simp [Exchange.call, e.stop_stopped.1] at h
      · simp [Exchange.call] at h
    · have := ih _ err log h
      rwa [(e.call_keeps c).2] at this

theorem Exchange.after_keeps (calls : List Call) :
    ∀ e : Exchange, (e.after calls).config = e.config ∧ (e.after calls).variant = e.variant := by
  induction calls with
  | nil => intro e; exact ⟨rfl, rfl⟩
  | cons c cs ih =>
    intro e
    simp only [Exchange.after]
    exact ⟨(ih _).1.trans (e.call_keeps c).1, (ih _).2.trans (e.call_keeps c).2⟩

theorem Exchange.after_append (calls : List Call) (c : Call) :
    ∀ e : Exchange, e.after (calls ++ [c]) = ((e.after calls).call c).1 := by
  induction calls with
  | nil => intro e; rfl
  | cons d ds ih =>
    intro e
    show Exchange.after (e.call d).1 (ds ++ [c]) = _
    exact ih _

theorem Exchange.trace_append (calls : List Call) (c : Call) :
    ∀ e : Exchange, e.trace (calls ++ [c]) = e.trace calls ++ [((e.after calls).call c).2] := by
  induction calls with
  | nil => intro e; rfl
  | cons d ds ih =>
    intro e
    show (e.call d).2 :: Exchange.trace (e.call d).1 (ds ++ [c]) = _
    rw [ih]
    rfl

/-- After a sequence of Start and Stop calls on a backend that was not running,
the backend runs exactly when the sequence ends in Start. -/
theorem Exchange.after_running (e : Exchange) (h0 : e.IsRunning = false) (calls : List Call)
    (hc : ∀ c ∈ calls, c = Call.Start ∨ c = Call.Stop) :
    (e.after calls).IsRunning = true ↔ calls.getLast? = some Call.Start := by
  rcases List.eq_nil_or_concat calls with h | ⟨l, c, h⟩
  · subst h
    simp [Exchange.after, h0]
  · subst h
    have hc1 := hc c (by simp)
    rw [List.concat_eq_append, Exchange.after_append, Exchange.call_running,
      List.getLast?_append]
    rcases hc1 with hc1 | hc1 <;> subst hc1 <;> simp

theorem startEach_enabled (bs : List Exchange) (h : ∀ b ∈ bs, b.config.Enabled = true) :
    (startEach bs).1 = bs.map (fun b => b.Start.self) ∧
      (startEach bs).2.1 = (bs.map (fun b => b.Start.log)).foldr (· ++ ·) [] ∧
      (startEach bs).2.2.map (fun f => f.backend) =
        (bs.filter (fun b => b.Start.err.isSome)).map Exchange.Name ∧
      (startEach bs).2.2.map (fun f => some f.cause) =
        (bs.filter (fun b => b.Start.err.isSome)).map (fun b => b.Start.err) := by
  induction bs with
  | nil => exact ⟨rfl, rfl, rfl, rfl⟩
  | cons b bs ih =>
    have hb : b.config.Enabled = true := h b (by simp)
    obtain ⟨i1, i2, i3, i4⟩ := ih (fun x hx => h x (by simp [hx]))
    cases he : b.Start.err <;>
      simp [startEach, hb, he, i1, i2, i3, i4]

/-! ## Start and Stop on one backend -/

/-- C1: for every config and logger and every freshly constructed backend
(Binance, KuCoin, Coinbase, Kraken), the first `Start` succeeds and leaves the
backend running; the second `Start` returns the already-running error of the
venue, leaves the backend running, leaves the backend exactly as the first call
left it and writes nothing to the log. -/
theorem start_twice (config : Config) (logger : Logger) (e : Exchange)
    (h : e ∈ constructed config logger) :
    e.Start.err = none ∧ e.Start.self.IsRunning = true ∧
      e.Start.self.Start.err = some (AlreadyRunningError e.variant) ∧
      e.Start.self.Start.self.IsRunning = true ∧
      e.Start.self.Start.self = e.Start.self ∧
      e.Start.self.Start.log = [] := by
  obtain ⟨h1, h2, -, h4, -⟩ := e.start_of_stopped (constructed_stopped config logger e h).1
  have h5 := e.Start.self.start_of_running h2
  rw [h4] at h5
  refine ⟨h1, h2, ?_, ?_, ?_, ?_⟩
  · rw [h5]
  · rw [h5]; exact h2
  · rw [h5]
  · rw [h5]

/-- Instance of C1 at the Coinbase backend of `sampleConfig`: the second `Start`
returns "coinbase exchange already running". -/
theorem start_twice_witness :
    Exchange.coinbase (NewCoinbase sampleConfig sampleLogger) ∈
        constructed sampleConfig sampleLogger ∧
      (Exchange.coinbase (NewCoinbase sampleConfig sampleLogger)).Start.self.Start.err =
        some (AlreadyRunningError "coinbase") :=
  ⟨by simp [constructed],
    (start_twice sampleConfig sampleLogger (.coinbase (NewCoinbase sampleConfig sampleLogger))
      (by simp [constructed])).2.2.1⟩

/-- C2: `Stop` on a backend that is not running succeeds, writes nothing and
returns the backend unchanged (so `IsRunning` stays false). This covers every
freshly constructed backend of the four venues (Stop before Start) and the
backend left by Start then Stop (the second Stop). For every backend state `s`
at all, `Stop` succeeds and leaves the backend not running, and `Stop` applied
to the state after `Stop s` succeeds and gives that same state. -/
theorem stop_idempotent :
    (∀ s : Exchange, s.IsRunning = false → s.Stop = { self := s, log := [], err := none }) ∧
    (∀ (config : Config) (logger : Logger), ∀ e ∈ constructed config logger,
      e.IsRunning = false ∧ e.Stop = { self := e, log := [], err := none } ∧
      e.Start.self.Stop.err = none ∧ e.Start.self.Stop.self.IsRunning = false ∧
      e.Start.self.Stop.self.Stop =
        { self := e.Start.self.Stop.self, log := [], err := none }) ∧
    (∀ s : Exchange, s.Stop.err = none ∧ s.Stop.self.IsRunning = false ∧
      s.Stop.self.Stop.err = none ∧ s.Stop.self.Stop.self = s.Stop.self) := by
  have key : ∀ s : Exchange, s.Stop.err = none ∧ s.Stop.self.IsRunning = false := by
    intro s
    cases hs : s.IsRunning
    · rw [s.stop_of_stopped hs]; exact ⟨rfl, hs⟩
    · exact ⟨(s.stop_of_running hs).1, (s.stop_of_running hs).2.1⟩
  refine ⟨fun s hs => s.stop_of_stopped hs, ?_, ?_⟩
  · intro config logger e he
    have h0 := (constructed_stopped config logger e he).1
    exact ⟨h0, e.stop_of_stopped h0, (key _).1, (key _).2,
      Exchange.stop_of_stopped _ (key _).2⟩
  · intro s
    have h2 := Exchange.stop_of_stopped _ (key s).2
    refine ⟨(key s).1, (key s).2, ?_, ?_⟩
    · rw [h2]
    · rw [h2]

/-- Instance of C2: the Binance backend of `sampleConfig` after Start, Stop and
Stop equals the backend after Start and Stop, and it is the fresh backend
again. -/
theorem stop_idempotent_witness :
    (Exchange.binance (NewBinance sampleConfig sampleLogger)).Start.self.Stop.self.Stop =
      { self := .binance (NewBinance sampleConfig sampleLogger), log := [], err := none } :=
  (stop_idempotent.2.1 sampleConfig sampleLogger
    (.binance (NewBinance sampleConfig sampleLogger)) (by simp [constructed])).2.2.2.2

/-! ## The factory -/

/-- C3: for every factory and every config whose `Type` is one of "binance",
"kucoin", "coinbase", "kraken", `Create` returns a nil error and a backend of
the venue named by the tag, holding that config, not running, whose `Name()`
is `config.Name`. -/
theorem create_supported (f : Factory) (config : Config)
    (h : config.Type_ ∈ supportedTypes) :
    ∃ e : Exchange, f.Create config = (some e, none) ∧ e.variant = config.Type_ ∧
      e.config = config ∧ e.IsRunning = false ∧ e.Name = config.Name := by
  simp only [supportedTypes, List.mem_cons, List.mem_singleton, List.not_mem_nil,
    or_false] at h
  rcases h with h | h | h | h
  · exact ⟨.binance (NewBinance config f.logger), by simp [Factory.Create, h],
      h.symm, rfl, rfl, rfl⟩
  · exact ⟨.kucoin (NewKucoin config f.logger),
      by simp [Factory.Create, h, ExchangeTypeBinance, ExchangeTypeKucoin],
      h.symm, rfl, rfl, rfl⟩
  · exact ⟨.coinbase (NewCoinbase config f.logger),
      by simp [Factory.Create, h, ExchangeTypeBinance, ExchangeTypeKucoin,
        ExchangeTypeCoinbase],
      h.symm, rfl, rfl, rfl⟩
  · exact ⟨.kraken (NewKraken config f.logger),
      by simp [Factory.Create, h, ExchangeTypeBinance, ExchangeTypeKucoin,
        ExchangeTypeCoinbase, ExchangeTypeKraken],
      h.symm, rfl, rfl, rfl⟩

/-- Instance of C3 at `sampleConfig`, whose tag is "coinbase". -/
theorem create_supported_witness :
    sampleConfig.Type_ ∈ supportedTypes ∧
      ∃ e : Exchange, (NewFactory sampleLogger).Create sampleConfig = (some e, none) ∧
        e.variant = sampleConfig.Type_ ∧ e.config = sampleConfig ∧
        e.IsRunning = false ∧ e.Name = sampleConfig.Name :=
  ⟨by decide, create_supported (NewFactory sampleLogger) sampleConfig (by decide)⟩

/-- C4: for every factory and config, (a) when `config.Type` is none of the
four supported tags, `Create` returns a nil backend and the
`UnsupportedExchangeError` whose `ExchangeType` field is `config.Type` and
whose message is "unsupported exchange type: " followed by the tag; (b) in
every case exactly one of the returned backend and the returned error is
non-nil. -/
theorem create_unsupported (f : Factory) (config : Config) :
    (config.Type_ ∉ supportedTypes →
      f.Create config =
        (none, some (.unsupportedExchange { ExchangeType := config.Type_ })) ∧
      (DeltaBot.Error.unsupportedExchange { ExchangeType := config.Type_ }).Error =
        "unsupported exchange type: " ++ config.Type_) ∧
    ((f.Create config).1.isSome = !(f.Create config).2.isSome) := by
  constructor
  · intro h
    simp only [supportedTypes, List.mem_cons, List.mem_singleton, List.not_mem_nil,
      or_false, not_or] at h
    obtain ⟨h1, h2, h3, h4⟩ := h
    exact ⟨by simp [Factory.Create, h1, h2, h3, h4, NewUnsupportedExchangeError], rfl⟩
  · unfold Factory.Create
    split_ifs <;> rfl

/-- Instance of C4 at the empty tag and at "Binance", which differs from a
supported tag only in letter case. -/
theorem create_unsupported_witness :
    (NewFactory sampleLogger).Create { sampleConfig with Type_ := "" } =
        (none, some (.unsupportedExchange { ExchangeType := "" })) ∧
      (NewFactory sampleLogger).Create { sampleConfig with Type_ := "Binance" } =
        (none, some (.unsupportedExchange { ExchangeType := "Binance" })) ∧
      (DeltaBot.Error.unsupportedExchange { ExchangeType := "Binance" }).Error =
        "unsupported exchange type: Binance" :=
  ⟨((create_unsupported (NewFactory sampleLogger) { sampleConfig with Type_ := "" }).1
      (by decide)).1,
    ((create_unsupported (NewFactory sampleLogger) { sampleConfig with Type_ := "Binance" }).1
      (by decide)).1,
    by decide⟩

/-! ## Comparing the venues -/

/-- C5 as stated fails: on the call sequence Start, Start the Binance backend
and the Coinbase backend built from the same config return different errors
from the second call, "binance exchange already running" and "coinbase
exchange already running". -/
theorem variants_differ_in_error :
    (Exchange.binance (NewBinance sampleConfig sampleLogger)).trace [.Start, .Start] ≠
        (Exchange.coinbase (NewCoinbase sampleConfig sampleLogger)).trace [.Start, .Start] ∧
      ((Exchange.binance (NewBinance sampleConfig sampleLogger)).trace [.Start, .Start])[1]? =
        some (.done (some (.errorString "binance exchange already running")) []) ∧
      ((Exchange.coinbase (NewCoinbase sampleConfig sampleLogger)).trace [.Start, .Start])[1]? =
        some (.done (some (.errorString "coinbase exchange already running")) []) := by
  decide

/-- C5, amended: for every config, logger and finite sequence of Name, Start,
Stop and IsRunning calls, any two of the four freshly constructed backends
produce the same returned names, the same success-or-failure results, the same
IsRunning values and the same log entries; the errors themselves agree only up
to the venue: every error a backend returns is the already-running error of
its own venue, returned by a call that writes no log entry. -/
theorem variants_agree (config : Config) (logger : Logger) (calls : List Call)
    (e₁ e₂ : Exchange) (h₁ : e₁ ∈ constructed config logger)
    (h₂ : e₂ ∈ constructed config logger) :
    (e₁.trace calls).map Obs.outcome = (e₂.trace calls).map Obs.outcome ∧
      (∀ err log, Obs.done (some err) log ∈ e₁.trace calls →
        err = AlreadyRunningError e₁.variant ∧ log = []) := by
  obtain ⟨r1, c1⟩ := constructed_stopped config logger e₁ h₁
  obtain ⟨r2, c2⟩ := constructed_stopped config logger e₂ h₂
  exact ⟨(Exchange.trace_congr calls e₁ e₂ (by rw [c1, c2]) (by rw [r1, r2])).1,
    Exchange.trace_errors calls e₁⟩

/-- Instance of the amended C5: the KuCoin and the Kraken backend of
`sampleConfig` on Start, Name, Start, IsRunning, Stop, Stop. -/
theorem variants_agree_witness :
    ((Exchange.kucoin (NewKucoin sampleConfig sampleLogger)).trace
        [.Start, .Name, .Start, .IsRunning, .Stop, .Stop]).map Obs.outcome =
      ((Exchange.kraken (NewKraken sampleConfig sampleLogger)).trace
        [.Start, .Name, .Start, .IsRunning, .Stop, .Stop]).map Obs.outcome :=
  (variants_agree sampleConfig sampleLogger [.Start, .Name, .Start, .IsRunning, .Stop, .Stop]
    (.kucoin (NewKucoin sampleConfig sampleLogger))
    (.kraken (NewKraken sampleConfig sampleLogger))
    (by simp [constructed]) (by simp [constructed])).1

/-- C6: the credentials do not reach the log or the results. For every config,
every replacement `key`, `secret` of its `APIKey` and `Secret`, every logger
and every sequence of calls, each venue's backend built from the config and the
one built from the config with the replaced credentials produce the same
observations (returned errors and log entries included), and `Factory.Create`
on the two configs returns the same error and backends with the same
observations. -/
theorem credentials_not_observable (config : Config) (key secret : String)
    (logger : Logger) (calls : List Call) :
    (Exchange.binance (NewBinance config logger)).trace calls =
        (Exchange.binance
          (NewBinance { config with APIKey := key, Secret := secret } logger)).trace calls ∧
      (Exchange.kucoin (NewKucoin config logger)).trace calls =
        (Exchange.kucoin
          (NewKucoin { config with APIKey := key, Secret := secret } logger)).trace calls ∧
      (Exchange.coinbase (NewCoinbase config logger)).trace calls =
        (Exchange.coinbase
          (NewCoinbase { config with APIKey := key, Secret := secret } logger)).trace calls ∧
      (Exchange.kraken (NewKraken config logger)).trace calls =
        (Exchange.kraken
          (NewKraken { config with APIKey := key, Secret := secret } logger)).trace calls ∧
      ((NewFactory logger).Create config).2 =
        ((NewFactory logger).Create { config with APIKey := key, Secret := secret }).2 ∧
      ((NewFactory logger).Create config).1.map (fun e => e.trace calls) =
        ((NewFactory logger).Create { config with APIKey := key, Secret := secret }).1.map
          (fun e => e.trace calls) := by
  have hb := (Exchange.trace_congr calls (.binance (NewBinance config logger))
    (.binance (NewBinance { config with APIKey := key, Secret := secret } logger))
    rfl rfl).2 rfl
  have hk := (Exchange.trace_congr calls (.kucoin (NewKucoin config logger))
    (.kucoin (NewKucoin { config with APIKey := key, Secret := secret } logger))
    rfl rfl).2 rfl
  have hc := (Exchange.trace_congr calls (.coinbase (NewCoinbase config logger))
    (.coinbase (NewCoinbase { config with APIKey := key, Secret := secret } logger))
    rfl rfl).2 rfl
  have hr := (Exchange.trace_congr calls (.kraken (NewKraken config logger))
    (.kraken (NewKraken { config with APIKey := key, Secret := secret } logger))
    rfl rfl).2 rfl
  refine ⟨hb, hk, hc, hr, ?_, ?_⟩
  · simp only [Factory.Create]
    split_ifs <;> rfl
  · simp only [Factory.Create, NewFactory]
    split_ifs
    · exact congrArg some hb
    · exact congrArg some hk
    · exact congrArg some hc
    · exact congrArg some hr
    · rfl

/-! ## Logging and call sequences -/

/-- C9 as stated fails: `Start` on the running Binance backend of
`sampleConfig` returns the error "binance exchange already running" and writes
no log entry at all. -/
theorem start_error_not_logged :
    (Exchange.binance (NewBinance sampleConfig sampleLogger)).Start.self.IsRunning = true ∧
      (Exchange.binance (NewBinance sampleConfig sampleLogger)).Start.self.Start.err =
        some (.errorString "binance exchange already running") ∧
      (Exchange.binance (NewBinance sampleConfig sampleLogger)).Start.self.Start.log = [] := by
  decide

/-- C9, amended: for every backend, a `Start` or `Stop` call that changes the
running flag writes exactly two Info entries naming the configured `Name`, in
this order: "INFO: Starting <Name> exchange" and "INFO: <Name> exchange started
successfully" for `Start`, "INFO: Stopping <Name> exchange" and "INFO: <Name>
exchange stopped" for `Stop`. A call that does not change the flag writes
nothing; `Stop` never returns an error; a `Start` that returns an error (the
backend was running) writes no log entry and leaves the backend unchanged: the
error, whose text names the venue, is only returned to the caller. -/
theorem transitions_logged (e : Exchange) :
    (e.Start.self.IsRunning ≠ e.IsRunning →
      e.Start.err = none ∧
      e.Start.log = ["INFO: " ++ ("Starting " ++ e.config.Name ++ " exchange"),
        "INFO: " ++ (e.config.Name ++ " exchange started successfully")]) ∧
    (e.Stop.self.IsRunning ≠ e.IsRunning →
      e.Stop.log = ["INFO: " ++ ("Stopping " ++ e.config.Name ++ " exchange"),
        "INFO: " ++ (e.config.Name ++ " exchange stopped")]) ∧
    (e.Start.self.IsRunning = e.IsRunning → e.Start.log = []) ∧
    (e.Stop.self.IsRunning = e.IsRunning → e.Stop.log = []) ∧
    e.Stop.err = none ∧
    (∀ err, e.Start.err = some err →
      err = AlreadyRunningError e.variant ∧ e.Start.log = [] ∧ e.Start.self = e) := by
  cases h : e.IsRunning
  · obtain ⟨a1, a2, -, -, a5⟩ := e.start_of_stopped h
    rw [e.name_eq] at a5
    refine ⟨fun _ => ⟨a1, a5⟩, ?_, ?_, ?_, e.stop_stopped.1, ?_⟩
    · rw [e.stop_of_stopped h]; intro hh; exact absurd h hh
    · rw [a2]; intro hh; cases hh
    · rw [e.stop_of_stopped h]; intro _; rfl
    · intro err he; rw [a1] at he; cases he
  · obtain ⟨b1, b2, -, -, b5⟩ := e.stop_of_running h
    rw [e.name_eq] at b5
    refine ⟨?_, fun _ => b5, ?_, ?_, b1, ?_⟩
    · rw [e.start_of_running h]; intro hh; exact absurd h hh
    · rw [e.start_of_running h]; intro _; rfl
    · rw [b2]; intro hh; cases hh
    · intro err he
      rw [e.start_of_running h] at he ⊢
      simp only [Option.some.injEq] at he
      exact ⟨he.symm, rfl, rfl⟩

/-- Instance of the amended C9: the two entries that `Start` writes on the
fresh Coinbase backend of `sampleConfig`, whose `Name` is "Coinbase Pro". -/
theorem transitions_logged_witness :
    (Exchange.coinbase (NewCoinbase sampleConfig sampleLogger)).Start.err = none ∧
      (Exchange.coinbase (NewCoinbase sampleConfig sampleLogger)).Start.log =
        ["INFO: Starting Coinbase Pro exchange",
          "INFO: Coinbase Pro exchange started successfully"] :=
  (transitions_logged (.coinbase (NewCoinbase sampleConfig sampleLogger))).1 (by decide)

/-- C10: take a backend of a venue present in the source (Binance, KuCoin,
Coinbase), freshly constructed from `config`, and any sequence `calls` of Start
and Stop calls performed on it. Then `IsRunning()` afterwards is true exactly
when `calls` ends in Start (so it is false for the empty sequence); a `Start`
performed next returns an error exactly when the last call of `calls` was a
Start; a `Stop` performed next returns no error; and `Name()` is `config.Name`.
As `calls` ranges over all sequences, this speaks of every call of every
sequence: the observation of a call that follows `calls` in a trace is the one
made on the backend after `calls`. -/
theorem lifecycle_sequence (config : Config) (logger : Logger) (e : Exchange)
    (he : e ∈ sourceBackends config logger) (calls : List Call)
    (hc : ∀ c ∈ calls, c = Call.Start ∨ c = Call.Stop) :
    ((e.after calls).IsRunning = true ↔ calls.getLast? = some Call.Start) ∧
      ((e.after calls).Start.err ≠ none ↔ calls.getLast? = some Call.Start) ∧
      (e.after calls).Stop.err = none ∧
      (e.after calls).Name = config.Name ∧
      (∀ c : Call, e.trace (calls ++ [c]) = e.trace calls ++ [((e.after calls).call c).2]) := by
  have hmem : e ∈ constructed config logger := by
    simp only [sourceBackends, List.mem_cons, List.mem_singleton, List.not_mem_nil,
      or_false] at he
    simp only [constructed, List.mem_cons, List.mem_singleton, List.not_mem_nil, or_false]
    rcases he with h | h | h
    · exact Or.inl h
    · exact Or.inr (Or.inl h)
    · exact Or.inr (Or.inr (Or.inl h))
  obtain ⟨h0, hcfg⟩ := constructed_stopped config logger e hmem
  have hrun := e.after_running h0 calls hc
  refine ⟨hrun, ?_, (e.after calls).stop_stopped.1, ?_,
    fun c => Exchange.trace_append calls c e⟩
  · rw [← hrun]
    cases h : (e.after calls).IsRunning
    · simp [((e.after calls).start_of_stopped h).1]
    · simp [(e.after calls).start_of_running h]
  · rw [Exchange.name_eq, (Exchange.after_keeps calls e).1, hcfg]

/-- Instance of C10: the KuCoin backend of `sampleConfig` after Start, Stop,
Start is running, and a further `Start` fails. -/
theorem lifecycle_sequence_witness :
    ((Exchange.kucoin (NewKucoin sampleConfig sampleLogger)).after
        [.Start, .Stop, .Start]).IsRunning = true ∧
      ((Exchange.kucoin (NewKucoin sampleConfig sampleLogger)).after
        [.Start, .Stop, .Start]).Start.err ≠ none :=
  have h := lifecycle_sequence sampleConfig sampleLogger
    (.kucoin (NewKucoin sampleConfig sampleLogger)) (by simp [sourceBackends])
    [.Start, .Stop, .Start] (by simp)
  ⟨h.1.2 (by decide), h.2.1.2 (by decide)⟩

/-! ## The supervisor -/

/-- C8: for every supervisor whose backends are all enabled, `StartAll` calls
`Start` on every backend, one after the other in configuration order (the
backends afterwards are the results of the `Start` calls, position by position,
and the log is the concatenation of what the calls wrote, in that order),
whether or not another backend failed; every backend is running afterwards; the
failures of the aggregate error are, in order, exactly the backends whose
`Start` returned an error, each under its `Name()` and with that error; and the
result is success exactly when no `Start` returned an error. -/
theorem startAll_isolates_failures (s : LifecycleSupervisor)
    (h : ∀ b ∈ s.backends, b.config.Enabled = true) :
    s.StartAll.self.backends = s.backends.map (fun b => b.Start.self) ∧
      s.StartAll.log = (s.backends.map (fun b => b.Start.log)).foldr (· ++ ·) [] ∧
      (∀ b ∈ s.StartAll.self.backends, b.IsRunning = true) ∧
      (match s.StartAll.err with
        | none => ∀ b ∈ s.backends, b.Start.err = none
        | some agg =>
          agg.failures ≠ [] ∧
          agg.failures.map (fun f => f.backend) =
            (s.backends.filter (fun b => b.Start.err.isSome)).map Exchange.Name ∧
          agg.failures.map (fun f => some f.cause) =
            (s.backends.filter (fun b => b.Start.err.isSome)).map (fun b => b.Start.err)) := by
  obtain ⟨h1, h2, h3, h4⟩ := startEach_enabled s.backends h
  refine ⟨h1, h2, ?_, ?_⟩
  · intro b hb
    have hb1 : b ∈ s.backends.map (fun b => b.Start.self) := h1 ▸ hb
    obtain ⟨a, -, rfl⟩ := List.mem_map.1 hb1
    exact a.start_running
  · by_cases hf : (startEach s.backends).2.2 = []
    · have : s.StartAll.err = none := by simp [LifecycleSupervisor.StartAll, hf]
      rw [this]
      intro b hb
      rw [hf] at h3
      have hnil : s.backends.filter (fun b => b.Start.err.isSome) = [] := by
        simpa using h3.symm
      have := (List.filter_eq_nil_iff.1 hnil) b hb
      simpa using this
    · have : s.StartAll.err = some { failures := (startEach s.backends).2.2 } := by
        simp [LifecycleSupervisor.StartAll, hf]
      rw [this]
      exact ⟨hf, h3, h4⟩

/-- Instance of C8: a Binance backend that is already running (its `Start`
fails), followed by a fresh Coinbase and a fresh KuCoin backend. Both others
are started, and the aggregate error names the Binance backend only. -/
theorem startAll_isolates_failures_witness :
    (LifecycleSupervisor.StartAll
        { backends :=
            [(Exchange.binance (NewBinance { sampleConfig with Name := "B" } sampleLogger)).Start.self,
              .coinbase (NewCoinbase { sampleConfig with Name := "C" } sampleLogger),
              .kucoin (NewKucoin { sampleConfig with Name := "K" } sampleLogger)],
          state := .Idle }).self.backends.map Exchange.IsRunning = [true, true, true] ∧
      (LifecycleSupervisor.StartAll
        { backends :=
            [(Exchange.binance (NewBinance { sampleConfig with Name := "B" } sampleLogger)).Start.self,
              .coinbase (NewCoinbase { sampleConfig with Name := "C" } sampleLogger),
              .kucoin (NewKucoin { sampleConfig with Name := "K" } sampleLogger)],
          state := .Idle }).err =
        some { failures :=
          [{ backend := "B", cause := .errorString "binance exchange already running" }] } :=
  have h := startAll_isolates_failures
    { backends :=
        [(Exchange.binance (NewBinance { sampleConfig with Name := "B" } sampleLogger)).Start.self,
          .coinbase (NewCoinbase { sampleConfig with Name := "C" } sampleLogger),
          .kucoin (NewKucoin { sampleConfig with Name := "K" } sampleLogger)],
      state := .Idle } (by decide)
  ⟨by rw [h.1]; decide, by decide⟩

end DeltaBot
